import Mathlib

/-!
Verification development for the Hypernode Facilitator x402
payment-intent / escrow-settlement protocol.

The definitions below shallowly embed the protocol's data model, the
x402 Express middleware (`x402-middleware` in the source), the
facilitator client wrapper (`client.js`), and the complete-job route
(`routes/facilitator.js`).  The intent ledger, the signature verifier,
the escrow settlement machine, and the attestation verifier are not
shipped in the available source tree (only their tests, callers and
reference documentation are); those components are modelled from the
specification, as marked on each definition.

Machine integers are modelled as `Nat` (amounts never overflow in the
claims considered; all amounts are token base units), timestamps as
`Nat` milliseconds, and identities / hashes as `String`.  Ed25519
signature checking is abstracted as an opaque boolean-valued function
parameter `checkSig : String → String → String → Bool` taking the
signing message, the signature and the claimed signer identity.
-/

namespace Hypernode

/-- A payment intent, the off-chain authorization object
(`PaymentIntent` in `x402.js`, shape fixed by the protocol docs). -/
structure PaymentIntent where
  intentId : String
  client : String
  amount : Nat
  jobId : String
  createdAt : Nat
  expiresAt : Nat
  nonce : String
deriving Repr, DecidableEq

/-- Canonical signing message for an intent, per the protocol
specification's fixed human-readable template (timestamp rendering is
abstracted as decimal; the claims below depend only on determinism). -/
def toSigningMessage (i : PaymentIntent) : String :=
  "HYPERNODE Payment Intent\n\nIntent ID: " ++ i.intentId ++
  "\nJob ID: " ++ i.jobId ++
  "\nAmount: " ++ toString i.amount ++ " HYPER" ++
  "\nTimestamp: " ++ toString i.createdAt ++
  "\nExpires: " ++ toString i.expiresAt ++
  "\nNonce: " ++ i.nonce ++
  "\n\nBy signing this message, you authorize this payment."

/-- Modelled from the spec: ledger entry stored by the intent ledger
(`x402-redis-store.js` is not in the source tree; layout follows
section 6: serialized intent, signature, consumed flag, expiry). -/
structure LedgerEntry where
  intent : PaymentIntent
  signature : String
  consumed : Bool
  storedAt : Nat
  expiresAt : Nat
deriving Repr, DecidableEq

/-- The intent ledger state: an association list keyed by `intentId`.
The Redis hash keyed by intent id is modelled as this list; atomic
Redis commands become atomic functional updates. -/
abbrev LedgerState := List (String × LedgerEntry)

/-- First-match association-list lookup (models a keyed read). -/
def alookup {β : Type} : List (String × β) → String → Option β
  | [], _ => none
  | (k, v) :: rest, id => if k = id then some v else alookup rest id

/-- Replace the first entry with the given key (models a keyed write). -/
def aupdate {β : Type} : List (String × β) → String → β → List (String × β)
  | [], _, _ => []
  | (k, v) :: rest, id, v' =>
    if k = id then (k, v') :: rest else (k, v) :: aupdate rest id v'

/-- Modelled from the spec: `store(intent, signature)` — idempotent
insert; an existing entry for the same `intentId` is left untouched
(in particular its `consumed` flag is never overwritten). -/
def store (st : LedgerState) (intent : PaymentIntent) (sig : String)
    (now : Nat) : LedgerState :=
  match alookup st intent.intentId with
  | some _ => st
  | none =>
      (intent.intentId,
        { intent := intent, signature := sig, consumed := false,
          storedAt := now, expiresAt := intent.expiresAt }) :: st

/-- Modelled from the spec: `isUsed(intentId)` — reads the consumed
flag; absent entries read as not used. -/
def isUsed (st : LedgerState) (id : String) : Bool :=
  match alookup st id with
  | some e => e.consumed
  | none => false

/-- Modelled from the spec: `markUsed(intentId)` — atomic
compare-and-set on `consumed`; returns true only for the caller that
performs the false-to-true transition. -/
def markUsed : LedgerState → String → Bool × LedgerState
  | [], _ => (false, [])
  | (k, e) :: rest, id =>
    if k = id then
      if e.consumed then (false, (k, e) :: rest)
      else (true, (k, { e with consumed := true }) :: rest)
    else
      let r := markUsed rest id
      (r.1, (k, e) :: r.2)

/-- Modelled from the spec: `retrieve(intentId)` — returns none when
the entry is absent or lazily expired (`now >= expiresAt`), whether or
not a cleanup sweep has run. -/
def retrieve (st : LedgerState) (id : String) (now : Nat) :
    Option LedgerEntry :=
  match alookup st id with
  | none => none
  | some e => if e.expiresAt ≤ now then none else some e

/-- Modelled from the spec: `cleanup()` — deletes entries past expiry
and reports how many were deleted; purely a space reclamation. -/
def cleanup (st : LedgerState) (now : Nat) : Nat × LedgerState :=
  let kept := st.filter (fun p => now < p.2.expiresAt)
  (st.length - kept.length, kept)

/-- Consumed flag of the ledger entry for an id, when present. -/
def consumedFlag (st : LedgerState) (id : String) : Option Bool :=
  (alookup st id).map (·.consumed)

/-- Ledger mutators, for stating flag-monotonicity across arbitrary
later operations. -/
inductive LedgerOp where
  | opStore (intent : PaymentIntent) (sig : String) (now : Nat)
  | opMarkUsed (id : String)
  | opCleanup (now : Nat)

/-- Apply one ledger operation (the returned values are dropped: only
state evolution matters for the invariants below). -/
def applyOp (st : LedgerState) : LedgerOp → LedgerState
  | .opStore intent sig now => store st intent sig now
  | .opMarkUsed id => (markUsed st id).2
  | .opCleanup now => (cleanup st now).2

/-- Apply a sequence of ledger operations, left to right. -/
def applyOps (st : LedgerState) : List LedgerOp → LedgerState
  | [] => st
  | op :: rest => applyOps (applyOp st op) rest

/-- Keys of a keyed state. -/
def keysOf {β : Type} (st : List (String × β)) : List String :=
  st.map Prod.fst

/-- Error taxonomy of the protocol (section 7 of the specification and
the on-chain program's error enum in the contract reference). -/
inductive X402Error where
  | MalformedPayment
  | InvalidSignature
  | SignerMismatch
  | Expired
  | InsufficientAmount
  | AssetMismatch
  | AlreadyUsed
  | AuthorizationFailed
  | UnauthorizedOracle
  | NodeInactive
  | DuplicateProof
  | InvalidProofFormat
  | CannotCancel
deriving Repr, DecidableEq

/-- Result of signature verification. -/
inductive VerifyResult where
  | valid
  | invalid (reason : X402Error)
deriving Repr, DecidableEq

/-- Modelled from the spec: `X402Verifier.verify` (`x402.js` is not in
the source tree; behaviour follows section 4.2 checks 1-3 and the
protocol docs' verification algorithm, which the middleware calls with
the intent, the signature and the claimed signer).  Cryptographic
verification is the abstract parameter `checkSig`.  Pure: consumes no
state and returns none. -/
def X402Verifier.verify (checkSig : String → String → String → Bool)
    (intent : PaymentIntent) (sig claimed : String) (now : Nat) :
    VerifyResult :=
  if ¬ checkSig (toSigningMessage intent) sig claimed then
    .invalid .InvalidSignature
  else if intent.client ≠ claimed then .invalid .SignerMismatch
  else if intent.expiresAt ≤ now then .invalid .Expired
  else .valid

/-- Modelled from the spec: the full verification battery of section
4.2 (checks 1-6): core signature checks, then caller-supplied required
amount, required asset, and the ledger's consumed flag supplied by the
caller as `alreadyConsumed` (verification itself is stateless). -/
def verifyFull (checkSig : String → String → String → Bool)
    (intent : PaymentIntent) (sig claimed : String) (now : Nat)
    (requiredAmount : Option Nat) (requiredAsset intentAsset : Option String)
    (alreadyConsumed : Bool) : VerifyResult :=
  match X402Verifier.verify checkSig intent sig claimed now with
  | .invalid r => .invalid r
  | .valid =>
    match requiredAmount with
    | some req =>
      if intent.amount < req then .invalid .InsufficientAmount
      else if requiredAsset ≠ intentAsset then .invalid .AssetMismatch
      else if alreadyConsumed then .invalid .AlreadyUsed
      else .valid
    | none =>
      if requiredAsset ≠ intentAsset then .invalid .AssetMismatch
      else if alreadyConsumed then .invalid .AlreadyUsed
      else .valid

/-- Escrow settlement machine status (section 4.4 state diagram and
the on-chain `PaymentStatus` enum). -/
inductive EscrowStatus where
  | Pending
  | Authorized
  | Escrowed
  | Verified
  | Settled
  | Cancelled
  | Expired
deriving Repr, DecidableEq

/-- One authorized-and-possibly-settled payment (`EscrowRecord`,
mirroring the on-chain `PaymentIntent` account). -/
structure EscrowRecord where
  intentId : String
  amount : Nat
  status : EscrowStatus
  assignedNodeId : Option String
  createdAt : Nat
  settledAt : Option Nat
deriving Repr, DecidableEq

/-- A registered worker (`NodeAccount` in the contract reference). -/
structure NodeRecord where
  nodeId : String
  authority : String
  stakeAmount : Nat
  totalEarned : Nat
  jobsCompleted : Nat
  isActive : Bool
deriving Repr, DecidableEq

/-- An accepted attestation (`UsageProof` account). -/
structure UsageProofRec where
  proofId : String
  intentId : String
  nodeId : String
  executionHash : String
  logsHash : String
  verified : Bool
  submittedAt : Nat
deriving Repr, DecidableEq

/-- Oracle-submitted proof payload (`UsageProofData`). -/
structure UsageProofData where
  intentId : String
  nodeId : String
  executionHash : String
  logsHash : String
deriving Repr, DecidableEq

/-- Combined facilitator state: intent ledger, escrow records, node
registry and accepted proofs. -/
structure FacState where
  ledger : LedgerState
  escrows : List (String × EscrowRecord)
  nodes : List (String × NodeRecord)
  proofs : List (String × UsageProofRec)
deriving Repr, DecidableEq

/-- Hex-digit test for hash well-formedness checking. -/
def hexDigit (c : Char) : Bool :=
  c.isDigit || ('a' ≤ c && c ≤ 'f') || ('A' ≤ c && c ≤ 'F')

/-- A well-formed execution/logs hash: exactly 64 hex characters. -/
def isHex64 (s : String) : Bool :=
  s.length == 64 && s.toList.all hexDigit

/-- Number of escrow locks recorded for one intent id. -/
def escrowCount (st : FacState) (id : String) : Nat :=
  st.escrows.countP (fun p => p.1 == id)

/-- Modelled from the spec: the `Authorize` transition of the escrow
settlement machine (section 4.4; the implementing code —
`x402-solana-adapter.js` settlement path and the on-chain
`authorize_payment` instruction — is not in the source tree).
Requires verifier success and the atomic `markUsed` false-to-true
transition before any funds are locked; locks `intent.amount` and
moves the new record to `Escrowed`.  `clientBalance` abstracts the
value-transfer backend's available balance. -/
def authorize (checkSig : String → String → String → Bool)
    (intent : PaymentIntent) (sig : String) (now : Nat)
    (clientBalance : Nat) (st : FacState) :
    Except X402Error EscrowRecord × FacState :=
  match verifyFull checkSig intent sig intent.client now none none none
      (isUsed st.ledger intent.intentId) with
  | .invalid r => (.error r, st)
  | .valid =>
    if clientBalance < intent.amount then (.error .AuthorizationFailed, st)
    else
      if (markUsed (store st.ledger intent sig now) intent.intentId).1 then
        (.ok { intentId := intent.intentId, amount := intent.amount,
               status := .Escrowed, assignedNodeId := none,
               createdAt := now, settledAt := none },
         { st with
             ledger :=
               (markUsed (store st.ledger intent sig now)
                 intent.intentId).2,
             escrows :=
               (intent.intentId,
                 { intentId := intent.intentId, amount := intent.amount,
                   status := .Escrowed, assignedNodeId := none,
                   createdAt := now, settledAt := none }) ::
                 st.escrows })
      else (.error .AlreadyUsed,
            { st with ledger := store st.ledger intent sig now })

/-- Settlement result reported on proof acceptance. -/
structure SettlementResult where
  intentId : String
  nodeId : String
  amountTransferred : Nat
deriving Repr, DecidableEq

/-- Modelled from the spec: the `SubmitUsageProof` transition (section
4.4; the on-chain `submit_usage_proof` instruction is not in the
source tree — validation order and effects follow the spec and the
contract reference: oracle authority match, matching record in
`Escrowed`, no prior accepted proof, well-formed 64-hex hashes, node
registered and active; on acceptance the record becomes `Settled`, the
locked amount is transferred to the node, and the node's `totalEarned`
and `jobsCompleted` counters are bumped). -/
def submitUsageProof (trustedOracle oracleIdentity : String)
    (pd : UsageProofData) (now : Nat) (st : FacState) :
    Except X402Error SettlementResult × FacState :=
  if oracleIdentity ≠ trustedOracle then (.error .UnauthorizedOracle, st)
  else
    match alookup st.escrows pd.intentId with
    | none => (.error .InvalidProofFormat, st)
    | some er =>
      if er.status ≠ .Escrowed then (.error .InvalidProofFormat, st)
      else if (alookup st.proofs pd.intentId).isSome then
        (.error .DuplicateProof, st)
      else if ¬ (isHex64 pd.executionHash && isHex64 pd.logsHash) then
        (.error .InvalidProofFormat, st)
      else
        match alookup st.nodes pd.nodeId with
        | none => (.error .NodeInactive, st)
        | some nd =>
          if ¬ nd.isActive then (.error .NodeInactive, st)
          else
            let er' : EscrowRecord :=
              { er with status := .Settled, settledAt := some now,
                        assignedNodeId := some pd.nodeId }
            let nd' : NodeRecord :=
              { nd with totalEarned := nd.totalEarned + er.amount,
                        jobsCompleted := nd.jobsCompleted + 1 }
            let pr : UsageProofRec :=
              { proofId := pd.intentId, intentId := pd.intentId,
                nodeId := pd.nodeId, executionHash := pd.executionHash,
                logsHash := pd.logsHash, verified := true,
                submittedAt := now }
            (.ok { intentId := pd.intentId, nodeId := pd.nodeId,
                   amountTransferred := er.amount },
             { st with escrows := aupdate st.escrows pd.intentId er',
                       nodes := aupdate st.nodes pd.nodeId nd',
                       proofs := (pd.intentId, pr) :: st.proofs })

/-- A completion report as seen by the attestation verifier: claimed
identity check outcome (crypto abstracted), hashes, referenced intent
and node, and declared resource-usage bounds. -/
structure CompletionReport where
  claimantSigValid : Bool
  executionHash : String
  logsHash : String
  intentId : String
  nodeId : String
  executionDuration : Nat
  declaredMaxDuration : Nat
deriving Repr, DecidableEq

/-- Modelled from the spec: the attestation verifier's six checks
(section 4.5; the oracle's `verifyExecution` implementation is not in
the source tree): claimant identity, hash well-formedness, intent in
`Escrowed` state, node registered and active, usage within declared
bounds, no prior accepted proof. -/
def attestationChecks (st : FacState) (r : CompletionReport) :
    List Bool :=
  [ r.claimantSigValid,
    isHex64 r.executionHash && isHex64 r.logsHash,
    (match alookup st.escrows r.intentId with
     | some er => er.status == .Escrowed
     | none => false),
    (match alookup st.nodes r.nodeId with
     | some nd => nd.isActive
     | none => false),
    r.executionDuration ≤ r.declaredMaxDuration,
    (alookup st.proofs r.intentId).isNone ]

/-- Modelled from the spec: the verification score in the unit
interval — the passed-check fraction (the spec leaves the per-check
weighting open; equal weights are used here). -/
def verificationScore (st : FacState) (r : CompletionReport) : ℚ :=
  ((attestationChecks st r).countP id : ℚ) / 6

/-- Modelled from the spec: fixed acceptance threshold (0.8). -/
def scoreThreshold : ℚ := 4 / 5

/-- Modelled from the spec: a report is accepted exactly when its
verification score reaches the threshold. -/
def attestationAccepts (st : FacState) (r : CompletionReport) : Bool :=
  scoreThreshold ≤ verificationScore st r

/-- The payment header of an incoming request, after transport
decoding: absent, undecodable (JSON parse / shape failure inside the
middleware's try block), or a parsed intent-signature payload. -/
inductive PaymentHeader where
  | missing
  | malformed (errMsg : String)
  | parsed (intent : PaymentIntent) (signature : String)

/-- HTTP-level response produced by the middleware on rejection. -/
structure MwResponse where
  status : Nat
  error : String
  message : String
deriving Repr, DecidableEq

/-- Middleware outcome: a rejection response, or proceed to the
downstream handler with the verified intent attached. -/
inductive MwOutcome where
  | reject (resp : MwResponse)
  | proceed (intent : PaymentIntent) (signature : String)
deriving Repr, DecidableEq

/-- Printable reason used in the middleware's 402 message. -/
def reasonString : X402Error → String
  | .MalformedPayment => "Malformed payment"
  | .InvalidSignature => "Invalid signature"
  | .SignerMismatch => "Signer does not match intent client"
  | .Expired => "Payment intent has expired"
  | .InsufficientAmount => "Payment amount is less than required"
  | .AssetMismatch => "Wrong payment asset"
  | .AlreadyUsed => "Payment intent already used"
  | .AuthorizationFailed => "Authorization failed"
  | .UnauthorizedOracle => "Unauthorized oracle"
  | .NodeInactive => "Node is not active"
  | .DuplicateProof => "Duplicate usage proof"
  | .InvalidProofFormat => "Invalid proof format"
  | .CannotCancel => "Cannot cancel"

/-- The x402 Express middleware (`x402Middleware` in
`x402-middleware.js`, present in the source): missing header is a 402;
a header that fails to decode lands in the catch block as a 400 Bad
Request; a failed signature verification is a 402 with the failing
reason; an already-consumed intent is a 409; otherwise the intent is
stored (idempotently) and the request proceeds.  Rejections touch no
state. -/
def x402Middleware (checkSig : String → String → String → Bool)
    (hdr : PaymentHeader) (now : Nat) (st : LedgerState) :
    MwOutcome × LedgerState :=
  match hdr with
  | .missing =>
      (.reject { status := 402, error := "Payment Required",
                 message := "x402: Missing payment intent header" }, st)
  | .malformed m =>
      (.reject { status := 400, error := "Bad Request",
                 message := "x402: " ++ m }, st)
  | .parsed intent sig =>
    match X402Verifier.verify checkSig intent sig intent.client now with
    | .invalid r =>
        (.reject { status := 402, error := "Payment Required",
                   message := "x402: " ++ reasonString r }, st)
    | .valid =>
      if isUsed st intent.intentId then
        (.reject { status := 409, error := "Conflict",
                   message := "Payment intent already used or expired" },
         st)
      else (.proceed intent sig, store st intent sig now)

/-- Verification as invoked against a facilitator state: reads the
consumed flag and returns the (unchanged) state, reflecting that
verification is a read-only operation with no writes
(section 4.2 / section 5). -/
def runVerify (checkSig : String → String → String → Bool)
    (intent : PaymentIntent) (sig claimed : String) (now : Nat)
    (requiredAmount : Option Nat)
    (requiredAsset intentAsset : Option String) (st : FacState) :
    VerifyResult × FacState :=
  (verifyFull checkSig intent sig claimed now requiredAmount
     requiredAsset intentAsset (isUsed st.ledger intent.intentId), st)

/-- State after `k` repeated verification calls with the same
arguments. -/
def runVerifyN (checkSig : String → String → String → Bool)
    (intent : PaymentIntent) (sig claimed : String) (now : Nat)
    (requiredAmount : Option Nat)
    (requiredAsset intentAsset : Option String) :
    Nat → FacState → FacState
  | 0, st => st
  | k + 1, st =>
      runVerifyN checkSig intent sig claimed now requiredAmount
        requiredAsset intentAsset k
        (runVerify checkSig intent sig claimed now requiredAmount
          requiredAsset intentAsset st).2

/-- Outcome of a facilitator-client operation: a resolved promise
carrying the reported escrow address (when the operation reports one)
and transaction signature, or a rejected promise. -/
inductive OpOutcome where
  | resolved (escrow : Option String) (txSignature : String)
  | rejected (errMsg : String)
deriving Repr, DecidableEq

/-- Whether an operation outcome is a resolved promise (the operation
reported success rather than surfacing an error). -/
def OpOutcome.isResolved : OpOutcome → Bool
  | .resolved _ _ => true
  | .rejected _ => false

/-- The facilitator client's call surface (`FacilitatorClient` in
`client.js`, present in the source).  Each payment operation also
reports the list of on-chain transactions it issues, so that absence
of value transfer is observable. -/
structure FacClient where
  authorizePayment : String → String → Nat → Nat → OpOutcome × List String
  submitUsageProof : String → String → String → String → OpOutcome × List String
  getNodeAccount : String → Option NodeRecord
  getPaymentIntent : String → Option EscrowRecord

/-- The no-op stub client substituted by `getFacilitatorClient` when
construction of the real client throws (present in the source:
`authorizePayment` resolves to a mock escrow and mock transaction
signature, `submitUsageProof` resolves to a mock transaction
signature, the read queries return null; no chain interaction at
all). -/
def mockFacilitatorClient : FacClient where
  authorizePayment := fun _ _ _ _ =>
    (.resolved (some "mock-escrow") "mock-tx", [])
  submitUsageProof := fun _ _ _ _ => (.resolved none "mock-tx", [])
  getNodeAccount := fun _ => none
  getPaymentIntent := fun _ => none

/-- Whether construction of the real `FacilitatorClient` succeeded or
threw (the constructor can throw on an invalid program id). -/
inductive ClientConstruction where
  | ok
  | throws (errMsg : String)

/-- Embeds `getFacilitatorClient` (present in the source): tries to
construct the real client and, if construction throws, silently falls
back to the mock client — the construction error is logged but never
surfaced to the caller. -/
def getFacilitatorClient (realClient : FacClient) :
    ClientConstruction → FacClient
  | .ok => realClient
  | .throws _ => mockFacilitatorClient

/-- A stored job row as read back by the complete-job route
(`jobs.getJobById`): the route uses the `escrow_pubkey` and
`payment_amount` columns written at submit time. -/
structure DbJob where
  jobId : String
  escrowPubkey : String
  intentId : String
  paymentAmount : Nat
  createdAt : Nat
deriving Repr, DecidableEq

/-- The argument tuple the complete-job route passes to
`facilitatorClient.submitUsageProof`. -/
structure ProofSubmissionCall where
  intentIdArg : String
  nodeIdArg : String
  executionHash : String
  logsHash : String
deriving Repr, DecidableEq

/-- Embeds the proof-submission call in `POST /complete-job`
(`routes/facilitator.js`, present in the source): the first argument,
received by `submitUsageProof` as its `intentId` parameter, is the
job's stored escrow public key. -/
def completeJobProofCall (job : DbJob)
    (nodeId executionHash logsHash : String) : ProofSubmissionCall :=
  { intentIdArg := job.escrowPubkey, nodeIdArg := nodeId,
    executionHash := executionHash, logsHash := logsHash }

/-- PDA seeds for a node account (`deriveNodePDA` in `client.js`). -/
def deriveNodePDASeeds (nodeId : String) : List String :=
  ["node", nodeId]

/-- PDA seeds for a payment intent (`derivePaymentIntentPDA`). -/
def derivePaymentIntentPDASeeds (intentId : String) : List String :=
  ["intent", intentId]

/-- PDA seeds for a usage proof (`deriveUsageProofPDA`). -/
def deriveUsageProofPDASeeds (intentId : String) : List String :=
  ["proof", intentId]

/-- PDA seeds for an escrow token account (inline derivation in
`authorizePayment` / `submitUsageProof`). -/
def deriveEscrowPDASeeds (intentId : String) : List String :=
  ["escrow", intentId]

/-- Embeds the PDA derivations performed inside
`FacilitatorClient.submitUsageProof` (present in the source): the
usage-proof, payment-intent and escrow addresses are all derived from
the `intentId` parameter of the call, the node address from its
`nodeId` parameter. -/
def submitUsageProofPDASeeds (call : ProofSubmissionCall) :
    List (List String) :=
  [ deriveUsageProofPDASeeds call.intentIdArg,
    derivePaymentIntentPDASeeds call.intentIdArg,
    deriveNodePDASeeds call.nodeIdArg,
    deriveEscrowPDASeeds call.intentIdArg ]

/-! Concrete fixtures used by the witnesses below. -/

/-- A signature check that accepts everything (abstract crypto
instantiated for concrete witnesses). -/
def exCheckSig : String → String → String → Bool := fun _ _ _ => true

/-- A signature check that rejects everything. -/
def exCheckSigF : String → String → String → Bool := fun _ _ _ => false

/-- A concrete payment intent: amount 1000000, one-hour expiry. -/
def exIntent : PaymentIntent :=
  { intentId := "i1", client := "alice", amount := 1000000,
    jobId := "job1", createdAt := 0, expiresAt := 3600000, nonce := "n1" }

/-- A concrete intent that expired at time 100. -/
def exIntentExp : PaymentIntent :=
  { intentId := "i9", client := "alice", amount := 1000000,
    jobId := "job9", createdAt := 0, expiresAt := 100, nonce := "n9" }

/-- The empty facilitator state. -/
def exState0 : FacState :=
  { ledger := [], escrows := [], nodes := [], proofs := [] }

/-- The escrow record created by authorizing `exIntent` at time 0. -/
def exEscrow : EscrowRecord :=
  { intentId := "i1", amount := 1000000, status := .Escrowed,
    assignedNodeId := none, createdAt := 0, settledAt := none }

/-- The facilitator state after authorizing `exIntent` at time 0. -/
def exState1 : FacState :=
  { ledger := [("i1",
      { intent := exIntent, signature := "sig", consumed := true,
        storedAt := 0, expiresAt := 3600000 })],
    escrows := [("i1", exEscrow)], nodes := [], proofs := [] }

/-- A stored, not yet consumed ledger entry for `exIntent`. -/
def exEntry : LedgerEntry :=
  { intent := exIntent, signature := "sig", consumed := false,
    storedAt := 0, expiresAt := 3600000 }

/-- A one-entry ledger holding `exEntry` unconsumed. -/
def exLedger0 : LedgerState := [("i1", exEntry)]

/-- A stored, unconsumed ledger entry that expired at time 100. -/
def exEntryExp : LedgerEntry :=
  { intent := exIntentExp, signature := "sig", consumed := false,
    storedAt := 0, expiresAt := 100 }

/-- A ledger whose only entry expired at time 100. -/
def exLedgerExp : LedgerState := [("i9", exEntryExp)]

/-- A concrete sequence of later ledger operations (a replayed store
and two more markUsed calls). -/
def exOps : List LedgerOp :=
  [.opStore exIntent "sig2" 5, .opMarkUsed "i1", .opMarkUsed "i1"]

/-- A registered, active node with prior earnings. -/
def exNode : NodeRecord :=
  { nodeId := "n1", authority := "bob", stakeAmount := 0,
    totalEarned := 5, jobsCompleted := 2, isActive := true }

/-- A facilitator state with an escrowed intent and an active node. -/
def exState2 : FacState :=
  { ledger := exState1.ledger, escrows := [("i1", exEscrow)],
    nodes := [("n1", exNode)], proofs := [] }

/-- A valid 64-character hex hash. -/
def exHash64 : String := String.mk (List.replicate 64 'a')

/-- A concrete usage-proof payload with valid hashes. -/
def exProofData : UsageProofData :=
  { intentId := "i1", nodeId := "n1", executionHash := exHash64,
    logsHash := exHash64 }

/-- A completion report failing every attestation check. -/
def exReportFail : CompletionReport :=
  { claimantSigValid := false, executionHash := "", logsHash := "",
    intentId := "nope", nodeId := "nope", executionDuration := 10,
    declaredMaxDuration := 5 }

/-- A stored job row whose escrow public key differs from the payment
intent id. -/
def exJob : DbJob :=
  { jobId := "j1", escrowPubkey := "escrowPk", intentId := "i1",
    paymentAmount := 1000000, createdAt := 0 }

/-! Supporting lemmas about the intent ledger. -/

theorem alookup_cons_ne {β : Type} (k : String) (v : β)
    (st : List (String × β)) (id : String) (h : k ≠ id) :
    alookup ((k, v) :: st) id = alookup st id := by
  simp [alookup, h]

theorem alookup_cons_eq {β : Type} (k : String) (v : β)
    (st : List (String × β)) (id : String) (h : k = id) :
    alookup ((k, v) :: st) id = some v := by
  simp [alookup, h]

theorem alookup_none_of_not_mem {β : Type} (st : List (String × β))
    (id : String) (h : id ∉ keysOf st) : alookup st id = none := by
  induction st with
  | nil => rfl
  | cons p rest ih =>
    simp [keysOf] at h
    push_neg at h
    simp [alookup, Ne.symm h.1]
    exact ih (by simp [keysOf]; exact h.2)

theorem markUsed_consumed (st : LedgerState) (id : String)
    (e : LedgerEntry) (hl : alookup st id = some e)
    (hc : e.consumed = true) : markUsed st id = (false, st) := by
  induction st with
  | nil => simp [alookup] at hl
  | cons p rest ih =>
    obtain ⟨k, v⟩ := p
    by_cases hk : k = id
    · rw [alookup_cons_eq k v rest id hk] at hl
      injection hl with hv
      subst hv
      simp [markUsed, hk, hc]
    · rw [alookup_cons_ne k v rest id hk] at hl
      have := ih hl
      simp [markUsed, hk, this]

theorem markUsed_success (st : LedgerState) (id : String)
    (e : LedgerEntry) (hl : alookup st id = some e)
    (hc : e.consumed = false) :
    (markUsed st id).1 = true ∧
    alookup (markUsed st id).2 id = some { e with consumed := true } := by
  induction st with
  | nil => simp [alookup] at hl
  | cons p rest ih =>
    obtain ⟨k, v⟩ := p
    by_cases hk : k = id
    · rw [alookup_cons_eq k v rest id hk] at hl
      injection hl with hv
      subst hv
      simp [markUsed, hk, hc, alookup_cons_eq]
    · rw [alookup_cons_ne k v rest id hk] at hl
      obtain ⟨ih1, ih2⟩ := ih hl
      constructor
      · simpa [markUsed, hk] using ih1
      · simpa [markUsed, hk, alookup_cons_ne k v _ id hk] using ih2

theorem markUsed_ret_true (st : LedgerState) (id : String)
    (h : (markUsed st id).1 = true) :
    isUsed (markUsed st id).2 id = true := by
  induction st with
  | nil => simp [markUsed] at h
  | cons p rest ih =>
    obtain ⟨k, v⟩ := p
    by_cases hk : k = id
    · by_cases hc : v.consumed
      · simp [markUsed, hk, hc] at h
      · simp [markUsed, hk, hc, isUsed, alookup_cons_eq]
    · simp only [markUsed, if_neg hk] at h ⊢
      have := ih h
      simpa [isUsed, alookup_cons_ne k v _ id hk] using this

theorem alookup_markUsed_ne (st : LedgerState) (id' id : String)
    (h : id' ≠ id) : alookup (markUsed st id').2 id = alookup st id := by
  induction st with
  | nil => simp [markUsed]
  | cons p rest ih =>
    obtain ⟨k, v⟩ := p
    by_cases hk : k = id'
    · by_cases hc : v.consumed
      · simp [markUsed, hk, hc]
      · subst hk
        simp [markUsed, hc, alookup_cons_ne k _ _ id h,
          alookup_cons_ne k v _ id h]
    · by_cases hkid : k = id
      · simp [markUsed, hk, alookup_cons_eq k v _ id hkid,
          alookup_cons_eq k _ _ id hkid]
      · simp only [markUsed, if_neg hk]
        simpa [alookup_cons_ne k v _ id hkid,
          alookup_cons_ne k v _ id hkid] using ih

theorem consumedFlag_some (st : LedgerState) (id : String) (b : Bool)
    (h : consumedFlag st id = some b) :
    ∃ e, alookup st id = some e ∧ e.consumed = b := by
  unfold consumedFlag at h
  cases hl : alookup st id with
  | none => rw [hl] at h; simp at h
  | some e => rw [hl] at h; simp at h; exact ⟨e, rfl, h⟩

theorem consumedFlag_true_op (st : LedgerState) (id : String)
    (op : LedgerOp) (h : consumedFlag st id = some true)
    (hnc : ∀ t, op ≠ .opCleanup t) :
    consumedFlag (applyOp st op) id = some true := by
  obtain ⟨e, hl, hc⟩ := consumedFlag_some st id true h
  cases op with
  | opStore intent sig now =>
    show consumedFlag (store st intent sig now) id = some true
    cases hl2 : alookup st intent.intentId with
    | some v =>
      simp only [store, hl2]
      exact h
    | none =>
      by_cases hid : intent.intentId = id
      · rw [hid] at hl2
        rw [hl2] at hl
        exact absurd hl (by simp)
      · simp only [store, hl2]
        unfold consumedFlag
        rw [alookup_cons_ne intent.intentId _ st id hid]
        exact h
  | opMarkUsed id' =>
    by_cases hid : id' = id
    · subst hid
      simp [applyOp, markUsed_consumed st id' e hl hc]
      exact h
    · unfold applyOp consumedFlag
      rw [alookup_markUsed_ne st id' id hid]
      exact h
  | opCleanup t => exact absurd rfl (hnc t)

theorem consumedFlag_true_ops (st : LedgerState) (id : String)
    (ops : List LedgerOp) (h : consumedFlag st id = some true)
    (hnc : ∀ t, LedgerOp.opCleanup t ∉ ops) :
    consumedFlag (applyOps st ops) id = some true := by
  induction ops generalizing st with
  | nil => exact h
  | cons op rest ih =>
    have hop : ∀ t, op ≠ .opCleanup t := by
      intro t heq
      exact hnc t (by rw [← heq]; exact List.mem_cons_self op rest)
    have hrest : ∀ t, LedgerOp.opCleanup t ∉ rest := by
      intro t hmem
      exact hnc t (List.mem_cons_of_mem op hmem)
    exact ih (applyOp st op) (consumedFlag_true_op st id op h hop) hrest

theorem not_mem_keys_filter {β : Type} (st : List (String × β))
    (f : String × β → Bool) (id : String) (h : id ∉ keysOf st) :
    id ∉ keysOf (st.filter f) := by
  intro hmem
  apply h
  unfold keysOf at hmem ⊢
  obtain ⟨p, hp, hfst⟩ := List.mem_map.mp hmem
  exact List.mem_map.mpr ⟨p, (List.mem_filter.mp hp).1, hfst⟩

theorem retrieve_cleanup_agrees (st : LedgerState) (id : String)
    (now : Nat) (hnd : (keysOf st).Nodup) :
    retrieve (cleanup st now).2 id now = retrieve st id now := by
  induction st with
  | nil => rfl
  | cons p rest ih =>
    obtain ⟨k, e⟩ := p
    have hnd2 : (k :: keysOf rest).Nodup := hnd
    have hknotin : k ∉ keysOf rest := (List.nodup_cons.mp hnd2).1
    have hnd' : (keysOf rest).Nodup := (List.nodup_cons.mp hnd2).2
    by_cases hkeep : now < e.expiresAt
    · by_cases hk : k = id
      · subst hk
        simp [cleanup, List.filter_cons, hkeep, retrieve, alookup_cons_eq,
          Nat.not_le.mpr hkeep]
      · have hcl := ih hnd'
        simp only [cleanup, List.filter_cons, decide_eq_true_eq, hkeep,
          if_true, retrieve, alookup_cons_ne k e _ id hk] at hcl ⊢
        simpa [retrieve, alookup_cons_ne k e _ id hk] using hcl
    · have hexp : e.expiresAt ≤ now := Nat.le_of_not_lt hkeep
      by_cases hk : k = id
      · subst hk
        have hnone : alookup (rest.filter
            (fun p => decide (now < p.2.expiresAt))) k = none :=
          alookup_none_of_not_mem _ k
            (not_mem_keys_filter rest _ k hknotin)
        simp [cleanup, List.filter_cons, Nat.not_lt.mpr hexp, retrieve,
          alookup_cons_eq, hexp, hnone]
      · have hcl := ih hnd'
        simp only [cleanup] at hcl
        simp [cleanup, List.filter_cons, Nat.not_lt.mpr hexp, retrieve,
          alookup_cons_ne k e _ id hk]
        simpa [retrieve] using hcl

theorem alookup_aupdate_eq {β : Type} (st : List (String × β))
    (id : String) (v w : β) (h : alookup st id = some w) :
    alookup (aupdate st id v) id = some v := by
  induction st with
  | nil => simp [alookup] at h
  | cons p rest ih =>
    obtain ⟨k, u⟩ := p
    by_cases hk : k = id
    · simp [aupdate, hk, alookup_cons_eq]
    · rw [alookup_cons_ne k u rest id hk] at h
      simp [aupdate, hk, alookup_cons_ne k u _ id hk, ih h]

theorem verify_valid_inv (cs : String → String → String → Bool)
    (intent : PaymentIntent) (sig claimed : String) (now : Nat)
    (h : X402Verifier.verify cs intent sig claimed now = .valid) :
    cs (toSigningMessage intent) sig claimed = true ∧
    intent.client = claimed ∧ now < intent.expiresAt := by
  unfold X402Verifier.verify at h
  by_cases h1 : cs (toSigningMessage intent) sig claimed
  · by_cases h2 : intent.client = claimed
    · by_cases h3 : intent.expiresAt ≤ now
      · simp [h1, h2, h3] at h
      · exact ⟨h1, h2, Nat.lt_of_not_le h3⟩
    · simp [h1, h2] at h
  · simp [h1] at h

theorem verify_valid_of (cs : String → String → String → Bool)
    (intent : PaymentIntent) (sig claimed : String) (now : Nat)
    (h1 : cs (toSigningMessage intent) sig claimed = true)
    (h2 : intent.client = claimed) (h3 : now < intent.expiresAt) :
    X402Verifier.verify cs intent sig claimed now = .valid := by
  unfold X402Verifier.verify
  simp [h1, h2, Nat.not_le.mpr h3]

theorem verifyFull_none_valid_inv (cs : String → String → String → Bool)
    (intent : PaymentIntent) (sig claimed : String) (now : Nat)
    (consumed : Bool)
    (h : verifyFull cs intent sig claimed now none none none consumed
      = .valid) :
    X402Verifier.verify cs intent sig claimed now = .valid ∧
    consumed = false := by
  unfold verifyFull at h
  cases hv : X402Verifier.verify cs intent sig claimed now with
  | invalid r => rw [hv] at h; simp at h
  | valid =>
    rw [hv] at h
    simp at h
    cases hc : consumed with
    | true => rw [hc] at h; simp at h
    | false => exact ⟨rfl, rfl⟩

theorem verifyFull_none_consumed (cs : String → String → String → Bool)
    (intent : PaymentIntent) (sig claimed : String) (now : Nat)
    (hv : X402Verifier.verify cs intent sig claimed now = .valid) :
    verifyFull cs intent sig claimed now none none none true
      = .invalid .AlreadyUsed := by
  unfold verifyFull
  rw [hv]
  simp

theorem authorize_ok_inv (cs : String → String → String → Bool)
    (intent : PaymentIntent) (sig : String) (now bal : Nat)
    (st st1 : FacState) (er : EscrowRecord)
    (h : authorize cs intent sig now bal st = (.ok er, st1)) :
    cs (toSigningMessage intent) sig intent.client = true ∧
    now < intent.expiresAt ∧
    isUsed st1.ledger intent.intentId = true ∧
    st1.escrows = (intent.intentId, er) :: st.escrows ∧
    er.amount = intent.amount ∧ er.intentId = intent.intentId ∧
    er.status = .Escrowed := by
  unfold authorize at h
  cases hv : verifyFull cs intent sig intent.client now none none none
      (isUsed st.ledger intent.intentId) with
  | invalid r =>
    rw [hv] at h
    exact absurd h (by simp)
  | valid =>
    rw [hv] at h
    by_cases hbal : bal < intent.amount
    · rw [if_pos hbal] at h
      exact absurd h (by simp)
    · rw [if_neg hbal] at h
      by_cases hcas :
          (markUsed (store st.ledger intent sig now) intent.intentId).1
            = true
      · rw [if_pos hcas] at h
        have h1 := congrArg Prod.fst h
        have h2 := congrArg Prod.snd h
        simp only [Prod.fst, Prod.snd] at h1 h2
        injection h1 with h1'
        subst h1'
        subst h2
        obtain ⟨hvc, hconsf⟩ := verifyFull_none_valid_inv cs intent sig
          intent.client now (isUsed st.ledger intent.intentId) hv
        obtain ⟨hcs, _, hnow⟩ := verify_valid_inv cs intent sig
          intent.client now hvc
        refine ⟨hcs, hnow, ?_, rfl, rfl, rfl, rfl⟩
        exact markUsed_ret_true (store st.ledger intent sig now)
          intent.intentId hcas
      · rw [if_neg hcas] at h
        exact absurd h (by simp)

/-! Claim theorems. -/

/-- C1: submitting the same signed intent for Authorize a second time
fails with AlreadyUsed, and the pair of calls leaves exactly one
escrow lock of the intent's amount: after a successful Authorize, any
later Authorize of the same intent (before its expiry, with any
balance) is rejected with AlreadyUsed, changes no state, and in
particular locks no funds.  Authorize is a single atomic settlement
transition (section 5), so a concurrent pair of calls executes as one
of the two sequential orders; both orders are instances of this
statement. -/
theorem authorize_replay_rejected_single_lock
    (cs : String → String → String → Bool) (intent : PaymentIntent)
    (sig : String) (now now' bal bal' : Nat) (st st1 : FacState)
    (er : EscrowRecord)
    (h1 : authorize cs intent sig now bal st = (.ok er, st1))
    (h2 : now' < intent.expiresAt) :
    authorize cs intent sig now' bal' st1 = (.error .AlreadyUsed, st1) ∧
    er.amount = intent.amount ∧
    escrowCount st1 intent.intentId
      = escrowCount st intent.intentId + 1 ∧
    escrowCount (authorize cs intent sig now' bal' st1).2 intent.intentId
      = escrowCount st intent.intentId + 1 := by
  obtain ⟨hcs, _, hused, hesc, ham, _, _⟩ :=
    authorize_ok_inv cs intent sig now bal st st1 er h1
  have hv : X402Verifier.verify cs intent sig intent.client now' = .valid :=
    verify_valid_of cs intent sig intent.client now' hcs rfl h2
  have hvf : verifyFull cs intent sig intent.client now' none none none
      (isUsed st1.ledger intent.intentId) = .invalid .AlreadyUsed := by
    rw [hused]
    exact verifyFull_none_consumed cs intent sig intent.client now' hv
  have hauth : authorize cs intent sig now' bal' st1
      = (.error .AlreadyUsed, st1) := by
    unfold authorize
    rw [hvf]
  have hcount : escrowCount st1 intent.intentId
      = escrowCount st intent.intentId + 1 := by
    unfold escrowCount
    rw [hesc]
    rw [List.countP_cons_of_pos]
    simp
  exact ⟨hauth, ham, hcount, by rw [hauth]; exact hcount⟩

/-- Witness for C1: the concrete intent of amount 1000000 authorized
at time 0 and resubmitted at time 10. -/
theorem authorize_replay_rejected_single_lock_witness :
    authorize exCheckSig exIntent "sig" 10 500000 exState1
      = (.error .AlreadyUsed, exState1) ∧
    exEscrow.amount = exIntent.amount ∧
    escrowCount exState1 exIntent.intentId
      = escrowCount exState0 exIntent.intentId + 1 ∧
    escrowCount (authorize exCheckSig exIntent "sig" 10 500000 exState1).2
        exIntent.intentId
      = escrowCount exState0 exIntent.intentId + 1 :=
  authorize_replay_rejected_single_lock exCheckSig exIntent "sig" 0 10
    2000000 500000 exState0 exState1 exEscrow rfl (by decide)

/-- C2: for a stored intent the consumed flag transitions from false
to true exactly once and never back: the first `markUsed` call returns
true and flips the flag; after any later sequence of store/markUsed
operations the flag is still true and every later `markUsed` call for
the same id returns false without changing the ledger.  (A cleanup
sweep deletes expired entries outright rather than mutating flags, so
flag monotonicity is stated over the flag-mutating operations.)
`markUsed` is a single atomic compare-and-set, so concurrent callers
execute as some sequential order of calls, all covered by the
quantification over later operation sequences. -/
theorem markUsed_cas_exactly_once (st : LedgerState) (id : String)
    (e : LedgerEntry) (h1 : alookup st id = some e)
    (h2 : e.consumed = false) :
    (markUsed st id).1 = true ∧
    consumedFlag (markUsed st id).2 id = some true ∧
    ∀ ops : List LedgerOp, (∀ t, LedgerOp.opCleanup t ∉ ops) →
      consumedFlag (applyOps (markUsed st id).2 ops) id = some true ∧
      markUsed (applyOps (markUsed st id).2 ops) id
        = (false, applyOps (markUsed st id).2 ops) := by
  obtain ⟨hret, hl2⟩ := markUsed_success st id e h1 h2
  have hflag : consumedFlag (markUsed st id).2 id = some true := by
    unfold consumedFlag
    rw [hl2]
    rfl
  refine ⟨hret, hflag, ?_⟩
  intro ops hnc
  have h3 := consumedFlag_true_ops (markUsed st id).2 id ops hflag hnc
  obtain ⟨e', hl', hc'⟩ := consumedFlag_some _ id true h3
  exact ⟨h3, markUsed_consumed _ id e' hl' hc'⟩

/-- Witness for C2 on a one-entry ledger, with a replayed store and
two later markUsed calls as the intervening operations. -/
theorem markUsed_cas_exactly_once_witness :
    (markUsed exLedger0 "i1").1 = true ∧
    consumedFlag (markUsed exLedger0 "i1").2 "i1" = some true ∧
    (consumedFlag (applyOps (markUsed exLedger0 "i1").2 exOps) "i1"
        = some true ∧
      markUsed (applyOps (markUsed exLedger0 "i1").2 exOps) "i1"
        = (false, applyOps (markUsed exLedger0 "i1").2 exOps)) := by
  have h := markUsed_cas_exactly_once exLedger0 "i1" exEntry rfl rfl
  refine ⟨h.1, h.2.1, h.2.2 exOps ?_⟩
  intro t ht
  simp [exOps] at ht

/-- C3: a usage proof submitted by an identity other than the
configured trusted oracle authority is rejected with
UnauthorizedOracle, the whole facilitator state is unchanged, and in
particular the escrow record's status (Escrowed) is untouched: no
state change and no transfer happen. -/
theorem submitUsageProof_unauthorized_oracle (trusted oid : String)
    (pd : UsageProofData) (now : Nat) (st : FacState)
    (h : oid ≠ trusted) :
    submitUsageProof trusted oid pd now st
      = (.error .UnauthorizedOracle, st) ∧
    (alookup (submitUsageProof trusted oid pd now st).2.escrows
        pd.intentId).map (·.status)
      = (alookup st.escrows pd.intentId).map (·.status) ∧
    (submitUsageProof trusted oid pd now st).2.nodes = st.nodes := by
  have hmain : submitUsageProof trusted oid pd now st
      = (.error .UnauthorizedOracle, st) := by
    unfold submitUsageProof
    rw [if_pos h]
  exact ⟨hmain, by rw [hmain], by rw [hmain]⟩

/-- Witness for C3: an impostor identity submitting a well-formed
proof against an escrowed intent is rejected and the record stays
Escrowed. -/
theorem submitUsageProof_unauthorized_oracle_witness :
    submitUsageProof "oracle" "mallory" exProofData 50 exState2
      = (.error .UnauthorizedOracle, exState2) ∧
    (alookup (submitUsageProof "oracle" "mallory" exProofData 50
        exState2).2.escrows exProofData.intentId).map (·.status)
      = (alookup exState2.escrows exProofData.intentId).map (·.status) ∧
    (submitUsageProof "oracle" "mallory" exProofData 50
        exState2).2.nodes = exState2.nodes :=
  submitUsageProof_unauthorized_oracle "oracle" "mallory" exProofData 50
    exState2 (by decide)

/-- C4: an accepted usage proof for an escrowed intent settles it:
the record moves to Settled, exactly the locked escrow amount is
reported transferred to the assigned node, and that node's totalEarned
grows by the amount while its jobsCompleted grows by one. -/
theorem submitUsageProof_settles_and_pays (trusted : String)
    (pd : UsageProofData) (now : Nat) (st : FacState)
    (er : EscrowRecord) (nd : NodeRecord)
    (hesc : alookup st.escrows pd.intentId = some er)
    (hstat : er.status = .Escrowed)
    (hnop : alookup st.proofs pd.intentId = none)
    (hh1 : isHex64 pd.executionHash = true)
    (hh2 : isHex64 pd.logsHash = true)
    (hnode : alookup st.nodes pd.nodeId = some nd)
    (hact : nd.isActive = true) :
    (submitUsageProof trusted trusted pd now st).1
      = .ok { intentId := pd.intentId, nodeId := pd.nodeId,
              amountTransferred := er.amount } ∧
    (alookup (submitUsageProof trusted trusted pd now st).2.escrows
        pd.intentId).map (·.status) = some .Settled ∧
    (alookup (submitUsageProof trusted trusted pd now st).2.nodes
        pd.nodeId).map (·.totalEarned)
      = some (nd.totalEarned + er.amount) ∧
    (alookup (submitUsageProof trusted trusted pd now st).2.nodes
        pd.nodeId).map (·.jobsCompleted)
      = some (nd.jobsCompleted + 1) := by
  have hoid : ¬ (trusted ≠ trusted) := fun hne => hne rfl
  have he' := alookup_aupdate_eq st.escrows pd.intentId
  have hn' := alookup_aupdate_eq st.nodes pd.nodeId
  refine ⟨?_, ?_, ?_, ?_⟩ <;>
    simp [submitUsageProof, hoid, hesc, hstat, hnop, hh1, hh2, hnode,
      hact, he' _ er hesc, hn' _ nd hnode]

/-- Witness for C4: the escrowed 1000000-unit intent settled by the
trusted oracle with valid 64-character hex hashes; the node's
totalEarned rises from 5 to 1000005 and jobsCompleted from 2 to 3. -/
theorem submitUsageProof_settles_and_pays_witness :
    (submitUsageProof "oracle" "oracle" exProofData 60 exState2).1
      = .ok { intentId := exProofData.intentId,
              nodeId := exProofData.nodeId,
              amountTransferred := exEscrow.amount } ∧
    (alookup (submitUsageProof "oracle" "oracle" exProofData 60
        exState2).2.escrows exProofData.intentId).map (·.status)
      = some .Settled ∧
    (alookup (submitUsageProof "oracle" "oracle" exProofData 60
        exState2).2.nodes exProofData.nodeId).map (·.totalEarned)
      = some (exNode.totalEarned + exEscrow.amount) ∧
    (alookup (submitUsageProof "oracle" "oracle" exProofData 60
        exState2).2.nodes exProofData.nodeId).map (·.jobsCompleted)
      = some (exNode.jobsCompleted + 1) :=
  submitUsageProof_settles_and_pays "oracle" exProofData 60 exState2
    exEscrow exNode rfl rfl rfl (by decide) (by decide) rfl rfl

/-- C5: the attestation verifier runs all six checks, produces a
verification score in the unit interval, and accepts a report exactly
when the score reaches the fixed 0.8 threshold; a report whose checks
leave the score below the threshold is not accepted.  (The spec leaves
the per-check weighting open; the model weights the six checks
equally.) -/
theorem attestation_six_checks_threshold (st : FacState)
    (r : CompletionReport) :
    (attestationChecks st r).length = 6 ∧
    0 ≤ verificationScore st r ∧ verificationScore st r ≤ 1 ∧
    (attestationAccepts st r = true ↔
      scoreThreshold ≤ verificationScore st r) ∧
    (verificationScore st r < scoreThreshold →
      attestationAccepts st r = false) := by
  refine ⟨rfl, ?_, ?_, ?_, ?_⟩
  · unfold verificationScore
    positivity
  · unfold verificationScore
    rw [div_le_one (by norm_num : (0:ℚ) < 6)]
    have hc : (attestationChecks st r).countP id ≤ 6 := by
      calc (attestationChecks st r).countP id
          ≤ (attestationChecks st r).length := List.countP_le_length id
        _ = 6 := rfl
    exact_mod_cast hc
  · unfold attestationAccepts
    exact decide_eq_true_iff
  · intro hlt
    unfold attestationAccepts
    exact decide_eq_false (not_le.mpr hlt)

/-- Witness for C5: a report failing every check on the empty state
scores 0 and is rejected. -/
theorem attestation_six_checks_threshold_witness :
    (attestationChecks exState0 exReportFail).length = 6 ∧
    0 ≤ verificationScore exState0 exReportFail ∧
    verificationScore exState0 exReportFail ≤ 1 ∧
    (attestationAccepts exState0 exReportFail = true ↔
      scoreThreshold ≤ verificationScore exState0 exReportFail) ∧
    attestationAccepts exState0 exReportFail = false := by
  have h := attestation_six_checks_threshold exState0 exReportFail
  have hs : verificationScore exState0 exReportFail = 1 / 6 := by
    simp [verificationScore, attestationChecks, exState0, exReportFail,
      isHex64, alookup]
  exact ⟨h.1, h.2.1, h.2.2.1, h.2.2.2.1,
    h.2.2.2.2 (by rw [hs]; unfold scoreThreshold; norm_num)⟩

/-- C6: for any intent id, `retrieve` returns null when no entry
exists or the entry's expiry is at or before the current time; the
answer is the same whether or not a cleanup sweep has run (on a
well-formed ledger without duplicate keys); and Authorize on an intent
whose expiry has passed fails with Expired (for an otherwise valid
signature) without touching state. -/
theorem retrieve_lazy_expiry_authorize_expired (st : LedgerState)
    (id : String) (now : Nat)
    (cs : String → String → String → Bool) (intent : PaymentIntent)
    (sig : String) (bal : Nat) (stF : FacState)
    (hnd : (keysOf st).Nodup)
    (habs : alookup st id = none ∨
      ∃ e, alookup st id = some e ∧ e.expiresAt ≤ now)
    (hsig : cs (toSigningMessage intent) sig intent.client = true)
    (hexp : intent.expiresAt ≤ now) :
    retrieve st id now = none ∧
    retrieve (cleanup st now).2 id now = retrieve st id now ∧
    authorize cs intent sig now bal stF = (.error .Expired, stF) := by
  refine ⟨?_, retrieve_cleanup_agrees st id now hnd, ?_⟩
  · unfold retrieve
    rcases habs with hnone | ⟨e, hsome, hle⟩
    · rw [hnone]
    · rw [hsome]
      simp [hle]
  · have hv : X402Verifier.verify cs intent sig intent.client now
        = .invalid .Expired := by
      unfold X402Verifier.verify
      simp [hsig, hexp]
    have hvf : verifyFull cs intent sig intent.client now none none none
        (isUsed stF.ledger intent.intentId) = .invalid .Expired := by
      unfold verifyFull
      rw [hv]
    unfold authorize
    rw [hvf]

/-- Witness for C6: a ledger whose only entry expired at time 100,
read and authorized at time 200. -/
theorem retrieve_lazy_expiry_authorize_expired_witness :
    retrieve exLedgerExp "i9" 200 = none ∧
    retrieve (cleanup exLedgerExp 200).2 "i9" 200
      = retrieve exLedgerExp "i9" 200 ∧
    authorize exCheckSig exIntentExp "sig" 200 2000000 exState0
      = (.error .Expired, exState0) :=
  retrieve_lazy_expiry_authorize_expired exLedgerExp "i9" 200 exCheckSig
    exIntentExp "sig" 2000000 exState0 (by decide)
    (Or.inr ⟨exEntryExp, rfl, by decide⟩) rfl (by decide)

/-- C7: a payment header that fails to decode is rejected by the
middleware with a 400 Bad Request — distinct from the 402 used for the
invalid-signature rejection — and no state is touched; a request whose
signature verification fails is rejected as 402 Payment Required
carrying the specific failing reason, again with no state change. -/
theorem middleware_malformed_vs_invalid_signature
    (cs : String → String → String → Bool) (m : String) (now : Nat)
    (st : LedgerState) :
    x402Middleware cs (.malformed m) now st
      = (.reject { status := 400, error := "Bad Request",
                   message := "x402: " ++ m }, st) ∧
    (∀ intent sig r,
      X402Verifier.verify cs intent sig intent.client now = .invalid r →
      x402Middleware cs (.parsed intent sig) now st
        = (.reject { status := 402, error := "Payment Required",
                     message := "x402: " ++ reasonString r }, st)) ∧
    (400 : Nat) ≠ 402 := by
  refine ⟨rfl, ?_, by decide⟩
  intro intent sig r hv
  simp only [x402Middleware, hv]

/-- Witness for C7: a concrete undecodable header and a concrete
signature-check failure, rejected with 400 and 402 respectively, on an
untouched empty ledger. -/
theorem middleware_malformed_vs_invalid_signature_witness :
    x402Middleware exCheckSigF (.malformed "bad json") 0 []
      = (.reject { status := 400, error := "Bad Request",
                   message := "x402: " ++ "bad json" }, []) ∧
    x402Middleware exCheckSigF (.parsed exIntent "sig") 0 []
      = (.reject { status := 402, error := "Payment Required",
                   message := "x402: "
                     ++ reasonString .InvalidSignature }, []) ∧
    (400 : Nat) ≠ 402 := by
  have h := middleware_malformed_vs_invalid_signature exCheckSigF
    "bad json" 0 []
  exact ⟨h.1, h.2.1 exIntent "sig" .InvalidSignature rfl, h.2.2⟩

/-- C8: signature verification is a pure check: however many times it
is run, it returns the same result and leaves the facilitator state —
in particular the ledger and its consumed flags — exactly unchanged;
consumption happens only through the separate explicit `markUsed`
ledger call, never inside verification. -/
theorem verify_pure_stateless (cs : String → String → String → Bool)
    (intent : PaymentIntent) (sig claimed : String) (now : Nat)
    (ra : Option Nat) (ras ia : Option String) (st : FacState) :
    (runVerify cs intent sig claimed now ra ras ia st).2 = st ∧
    (∀ k, runVerifyN cs intent sig claimed now ra ras ia k st = st) ∧
    (∀ k, (runVerify cs intent sig claimed now ra ras ia
        (runVerifyN cs intent sig claimed now ra ras ia k st)).1
      = (runVerify cs intent sig claimed now ra ras ia st).1) ∧
    consumedFlag
        (runVerify cs intent sig claimed now ra ras ia st).2.ledger
        intent.intentId
      = consumedFlag st.ledger intent.intentId := by
  have hn : ∀ k st',
      runVerifyN cs intent sig claimed now ra ras ia k st' = st' := by
    intro k
    induction k with
    | zero => intro st'; rfl
    | succ k ih => intro st'; exact ih _
  exact ⟨rfl, fun k => hn k st, fun k => by rw [hn k st], rfl⟩

/-- C9: when construction of the FacilitatorClient throws,
`getFacilitatorClient` silently falls back to the no-op stub client:
`authorizePayment` resolves with the mock escrow and mock transaction
signature and `submitUsageProof` resolves with the mock transaction
signature — both report success, issue no on-chain transaction, and
never surface the initialization error. -/
theorem getFacilitatorClient_mock_fallback (realClient : FacClient)
    (msg clientPubkey intentId nid eh lh : String)
    (amount expiresAt : Nat) :
    (getFacilitatorClient realClient (.throws msg)).authorizePayment
        clientPubkey intentId amount expiresAt
      = (.resolved (some "mock-escrow") "mock-tx", []) ∧
    (getFacilitatorClient realClient (.throws msg)).submitUsageProof
        intentId nid eh lh
      = (.resolved none "mock-tx", []) ∧
    ((getFacilitatorClient realClient (.throws msg)).authorizePayment
        clientPubkey intentId amount expiresAt).1.isResolved = true ∧
    ((getFacilitatorClient realClient (.throws msg)).submitUsageProof
        intentId nid eh lh).1.isResolved = true :=
  ⟨rfl, rfl, rfl, rfl⟩

/-- C10: the complete-job route passes the job's stored escrow public
key — not the payment intent's intentId — as the `intentId` argument
of `submitUsageProof`, so the usage-proof, payment-intent and escrow
PDAs used during proof submission are all derived from the escrow
address; whenever the two identifiers differ, the identifier used is
not the original intent id. -/
theorem completeJob_uses_escrow_pubkey_as_intent_id (job : DbJob)
    (nodeId eh lh : String) :
    (completeJobProofCall job nodeId eh lh).intentIdArg
      = job.escrowPubkey ∧
    submitUsageProofPDASeeds (completeJobProofCall job nodeId eh lh)
      = [["proof", job.escrowPubkey], ["intent", job.escrowPubkey],
         ["node", nodeId], ["escrow", job.escrowPubkey]] ∧
    (job.escrowPubkey ≠ job.intentId →
      (completeJobProofCall job nodeId eh lh).intentIdArg
        ≠ job.intentId) :=
  ⟨rfl, rfl, fun h => h⟩

/-- Witness for C10: a concrete job whose escrow public key differs
from its intent id. -/
theorem completeJob_uses_escrow_pubkey_as_intent_id_witness :
    (completeJobProofCall exJob "n1" "eh" "lh").intentIdArg
      = exJob.escrowPubkey ∧
    submitUsageProofPDASeeds (completeJobProofCall exJob "n1" "eh" "lh")
      = [["proof", exJob.escrowPubkey], ["intent", exJob.escrowPubkey],
         ["node", "n1"], ["escrow", exJob.escrowPubkey]] ∧
    (completeJobProofCall exJob "n1" "eh" "lh").intentIdArg
      ≠ exJob.intentId := by
  have h := completeJob_uses_escrow_pubkey_as_intent_id exJob "n1" "eh"
    "lh"
  exact ⟨h.1, h.2.1, h.2.2 (by decide)⟩

end Hypernode
